import Mathlib

/-!
Shallow embedding of `src/robots/planning/trajectories/trapezoidal.py`
(classes `TrapezoidalTrajectory` and `ApproximateTrapezoidalTrajectory`).

Numpy float arrays are modelled as functions `Fin M → ℝ` (one entry per
axis) resp. `Fin N → Fin M → ℝ` (one row per waypoint); numpy scalar
floats are modelled as `ℝ`.  The Python classes precompute tables at
construction time (`__init__` / the static method `solve`) and evaluate
them in `__call__`; we model construction as `Option`-valued functions
(`none` models an `assert` firing, i.e. construction aborting with an
error and no trajectory object being produced) and evaluation as pure
functions of the precomputed tables.
-/

noncomputable section

open Classical

/-- Model of `np.sign` on scalars: `1`, `-1` or `0` according to the sign. -/
def npsign (x : ℝ) : ℝ := if 0 < x then 1 else if x < 0 then -1 else 0

/-- Real-valued indicator of a proposition; models multiplication by a
numpy boolean mask entry. -/
def indR (P : Prop) : ℝ := if P then 1 else 0

/-- Auxiliary loop of `np.argmax`: scan the remaining entries `xs`
(whose first entry has index `k`), keeping the index `b` and value `bv`
of the best entry seen so far; a later entry replaces the best one only
if strictly larger, so the first maximum wins. -/
def argmaxGo : List ℝ → ℕ → ℕ → ℝ → ℕ
  | [], _, b, _ => b
  | x :: xs, k, b, bv => if bv < x then argmaxGo xs (k + 1) k x else argmaxGo xs (k + 1) b bv

/-- Model of `np.argmax` over a vector given as a list: index of the first
largest entry (`0` on the empty list, matching no use in the code). -/
def npargmax : List ℝ → ℕ
  | [] => 0
  | x :: xs => argmaxGo xs 1 0 x

theorem argmaxGo_lt (xs : List ℝ) : ∀ (k b : ℕ) (bv : ℝ) (N : ℕ),
    b < N → k + xs.length ≤ N → argmaxGo xs k b bv < N := by
  induction xs with
  | nil => intro k b bv N hb _; simpa [argmaxGo] using hb
  | cons x xs ih =>
    intro k b bv N hb hk
    simp only [List.length_cons] at hk
    by_cases h : bv < x
    · simpa [argmaxGo, h] using ih (k + 1) k x N (by omega) (by omega)
    · simpa [argmaxGo, h] using ih (k + 1) b bv N hb (by omega)

theorem npargmax_lt (l : List ℝ) (h : l ≠ []) : npargmax l < l.length := by
  cases l with
  | nil => exact absurd rfl h
  | cons x xs => exact argmaxGo_lt xs 1 0 x (xs.length + 1) (by omega) (by omega)

/-- Model of `np.amax` over the axes of a per-axis vector. -/
def npamax {m : ℕ} (f : Fin (m + 1) → ℝ) : ℝ :=
  Finset.univ.sup' Finset.univ_nonempty f

/-- Result tuple `(t, ta, td, dq, ddq)` of `TrapezoidalTrajectory.solve`:
segment duration, per-axis acceleration- and deceleration-phase
durations, signed per-axis coast velocities and signed per-axis
accelerations. -/
structure SolveResult (M : ℕ) where
  t : ℝ
  ta : Fin M → ℝ
  td : Fin M → ℝ
  dq : Fin M → ℝ
  ddq : Fin M → ℝ

namespace TrapezoidalTrajectory

/-- Constraint check `TrapezoidalTrajectory.eval_constraint` for one axis:
`ddq_max*h >= np.abs(dq0**2 - dq1**2) * 0.5` with `h = np.abs(q1-q0)`
(eq. 3.14 of the reference cited in the code). -/
def eval_constraint (q0 q1 dq0 dq1 ddq_max : ℝ) : Prop :=
  ddq_max * |q1 - q0| ≥ |dq0 ^ 2 - dq1 ^ 2| * (1 / 2)

/-- Index `i = np.argmax(h)` in `solve`: the first axis of largest absolute
displacement `h = np.abs(q1 - q0)`. -/
def istar {m : ℕ} (q0 q1 : Fin (m + 1) → ℝ) : Fin (m + 1) :=
  ⟨npargmax (List.ofFn fun j => |q1 j - q0 j|), by
    have h := npargmax_lt (List.ofFn fun j : Fin (m + 1) => |q1 j - q0 j|) (by simp)
    simpa using h⟩

/-- Displacement `h[i]` for the dominant axis `i = argmax h`. -/
def hStar {m : ℕ} (q0 q1 : Fin (m + 1) → ℝ) : ℝ :=
  |q1 (istar q0 q1) - q0 (istar q0 q1)|

/-- Branch condition of `solve` on the dominant axis:
`h[i]*ddq_max > dq_max**2 - (dq0[i]**2 + dq1[i]**2) * 0.5`, i.e. the
velocity limit `dq_max` is reached and a coast phase at `dq_max`
exists.  `solve` takes the absolute values of the waypoint velocities,
hence the `|·|` on `v0`/`v1`. -/
def coastReachable {m : ℕ} (q0 q1 v0 v1 : Fin (m + 1) → ℝ) (dq_max ddq_max : ℝ) : Prop :=
  hStar q0 q1 * ddq_max >
    dq_max ^ 2 - (|v0 (istar q0 q1)| ^ 2 + |v1 (istar q0 q1)| ^ 2) * (1 / 2)

/-- Coast velocity `vlim[i]` of the dominant axis: `dq_max` when the
velocity limit is reached, else the bang-bang peak
`sqrt(h[i]*ddq_max + (dq0[i]**2 + dq1[i]**2) * 0.5)`. -/
def vlimStar {m : ℕ} (q0 q1 v0 v1 : Fin (m + 1) → ℝ) (dq_max ddq_max : ℝ) : ℝ :=
  if coastReachable q0 q1 v0 v1 dq_max ddq_max then dq_max
  else Real.sqrt (hStar q0 q1 * ddq_max +
    (|v0 (istar q0 q1)| ^ 2 + |v1 (istar q0 q1)| ^ 2) * (1 / 2))

/-- Phase duration `ta[i] = (vlim[i] - dq0[i]) / ddq_max` on the dominant axis. -/
def taStar {m : ℕ} (q0 q1 v0 v1 : Fin (m + 1) → ℝ) (dq_max ddq_max : ℝ) : ℝ :=
  (vlimStar q0 q1 v0 v1 dq_max ddq_max - |v0 (istar q0 q1)|) / ddq_max

/-- Phase duration `td[i] = (vlim[i] - dq1[i]) / ddq_max` on the dominant axis. -/
def tdStar {m : ℕ} (q0 q1 v0 v1 : Fin (m + 1) → ℝ) (dq_max ddq_max : ℝ) : ℝ :=
  (vlimStar q0 q1 v0 v1 dq_max ddq_max - |v1 (istar q0 q1)|) / ddq_max

/-- Total segment duration `t` computed in `solve` from the dominant
axis: the trapezoid time formula when `dq_max` is reached, else
`ta[i] + td[i]`. -/
def tTotal {m : ℕ} (q0 q1 v0 v1 : Fin (m + 1) → ℝ) (dq_max ddq_max : ℝ) : ℝ :=
  if coastReachable q0 q1 v0 v1 dq_max ddq_max then
    hStar q0 q1 / dq_max +
      (dq_max / (2 * ddq_max)) * (1 - |v0 (istar q0 q1)| / dq_max) ^ 2 +
      (dq_max / (2 * ddq_max)) * (1 - |v1 (istar q0 q1)| / dq_max) ^ 2
  else
    taStar q0 q1 v0 v1 dq_max ddq_max + tdStar q0 q1 v0 v1 dq_max ddq_max

/-- Discriminant of the quadratic solved in `solve` for the coast
velocity of a non-dominant axis, given the fixed total duration `t`:
`ddq_max**2*t**2 - 4*ddq_max*h + 2*ddq_max*(dq0 + dq1)*t - (dq0 - dq1)**2`. -/
def disc (h dq0 dq1 ddq_max t : ℝ) : ℝ :=
  ddq_max ^ 2 * t ^ 2 - 4 * ddq_max * h + 2 * ddq_max * (dq0 + dq1) * t - (dq0 - dq1) ^ 2

/-- Coast velocity of a non-dominant axis:
`0.5*(dq0 + dq1 + ddq_max*t - sqrt(disc))`.  Note that `np.sqrt` of a
negative discriminant yields `nan` (with a runtime warning, not an
exception); `Real.sqrt` stands in for it here and the claims only rely
on this value where the discriminant is nonnegative, or on the fact
that no error is raised. -/
def vlimOther (h dq0 dq1 ddq_max t : ℝ) : ℝ :=
  (dq0 + dq1 + ddq_max * t - Real.sqrt (disc h dq0 dq1 ddq_max t)) * (1 / 2)

/-- Per-axis coast velocity magnitude `vlim` assembled in `solve`: the
dominant axis gets `vlimStar`, every other axis (present only when
`n > 1`) gets the quadratic solution `vlimOther` for the shared `t`. -/
def vlimAt {m : ℕ} (q0 q1 v0 v1 : Fin (m + 1) → ℝ) (dq_max ddq_max : ℝ)
    (j : Fin (m + 1)) : ℝ :=
  if j = istar q0 q1 then vlimStar q0 q1 v0 v1 dq_max ddq_max
  else vlimOther |q1 j - q0 j| |v0 j| |v1 j| ddq_max (tTotal q0 q1 v0 v1 dq_max ddq_max)

/-- The tables returned by `TrapezoidalTrajectory.solve` (after the
feasibility assertion): `ta`/`td` are initialized to zero and only the
dominant axis entry is ever written; `dq = s * vlim` and
`ddq = s * ddq_max` restore the displacement signs `s = np.sign(q1-q0)`. -/
def solveTables {m : ℕ} (q0 q1 v0 v1 : Fin (m + 1) → ℝ) (dq_max ddq_max : ℝ) :
    SolveResult (m + 1) :=
  ⟨tTotal q0 q1 v0 v1 dq_max ddq_max,
   fun j => if j = istar q0 q1 then taStar q0 q1 v0 v1 dq_max ddq_max else 0,
   fun j => if j = istar q0 q1 then tdStar q0 q1 v0 v1 dq_max ddq_max else 0,
   fun j => npsign (q1 j - q0 j) * vlimAt q0 q1 v0 v1 dq_max ddq_max j,
   fun j => npsign (q1 j - q0 j) * ddq_max⟩

/-- Static method `TrapezoidalTrajectory.solve`: asserts `eval_constraint` on every
axis (an `AssertionError` aborts the computation, modelled by `none`),
then returns the solved tables. -/
def solve {m : ℕ} (q0 q1 v0 v1 : Fin (m + 1) → ℝ) (dq_max ddq_max : ℝ) :
    Option (SolveResult (m + 1)) :=
  if ∀ j, eval_constraint (q0 j) (q1 j) |v0 j| |v1 j| ddq_max then
    some (solveTables q0 q1 v0 v1 dq_max ddq_max)
  else none

end TrapezoidalTrajectory

/-- Precomputed state of a `TrapezoidalTrajectory` object: the waypoint
matrix `q` (N = n+2 rows, M = m+1 axes, `assert len(q) > 1` encoded in
the type), the waypoint velocity matrix `v0` and the per-segment solved
tables. -/
structure Traj (n m : ℕ) where
  q : Fin (n + 2) → Fin (m + 1) → ℝ
  v0 : Fin (n + 2) → Fin (m + 1) → ℝ
  seg : Fin (n + 1) → SolveResult (m + 1)

namespace TrapezoidalTrajectory

/-- The call `solve(q[i], q[i+1], v0[i], v0[i+1], dq_max, ddq_max)` of
the construction loop for segment `i`. -/
def segSolve {n m : ℕ} (q v0 : Fin (n + 2) → Fin (m + 1) → ℝ) (dq_max ddq_max : ℝ)
    (i : Fin (n + 1)) : Option (SolveResult (m + 1)) :=
  solve (q i.castSucc) (q i.succ) (v0 i.castSucc) (v0 i.succ) dq_max ddq_max

/-- The construction loop of `TrapezoidalTrajectory.__init__` for given
waypoint velocities: solve every segment; if any `solve` call raises
(its feasibility assertion fails), construction aborts with no
trajectory (`none`). -/
def mkWith {n m : ℕ} (q v0 : Fin (n + 2) → Fin (m + 1) → ℝ) (dq_max ddq_max : ℝ) :
    Option (Traj n m) :=
  if h : ∀ i : Fin (n + 1), (segSolve q v0 dq_max ddq_max i).isSome then
    some ⟨q, v0, fun i => (segSolve q v0 dq_max ddq_max i).get (h i)⟩
  else none

/-- Heuristic waypoint velocities of `__init__` when `dq` is not given:
first and last waypoint get zero; an interior waypoint `i` gets, per
axis, `s[i-1] * dq_max` when the displacement signs of the two
neighboring segments agree (`s[i-1] == s[i]`) and `0` otherwise. -/
def v0Heur {n m : ℕ} (q : Fin (n + 2) → Fin (m + 1) → ℝ) (dq_max : ℝ)
    (i : Fin (n + 2)) (j : Fin (m + 1)) : ℝ :=
  if h : 0 < (i : ℕ) ∧ (i : ℕ) < n + 1 then
    if npsign (q i j - q ⟨(i : ℕ) - 1, by omega⟩ j) =
        npsign (q ⟨(i : ℕ) + 1, by omega⟩ j - q i j) then
      npsign (q i j - q ⟨(i : ℕ) - 1, by omega⟩ j) * dq_max
    else 0
  else 0

/-- Construction with heuristic waypoint velocities (`dq = None`). -/
def mkHeur {n m : ℕ} (q : Fin (n + 2) → Fin (m + 1) → ℝ) (dq_max ddq_max : ℝ) :
    Option (Traj n m) :=
  mkWith q (v0Heur q dq_max) dq_max ddq_max

/-- Overwrite `dq_max = self.v0.max()` in `__init__` when explicit waypoint
velocities are supplied: the (signed) maximum over all entries. -/
def v0flatMax {n m : ℕ} (v0 : Fin (n + 2) → Fin (m + 1) → ℝ) : ℝ :=
  Finset.univ.sup' Finset.univ_nonempty fun p : Fin (n + 2) × Fin (m + 1) => v0 p.1 p.2

/-- Construction with an explicit waypoint velocity matrix `dq`: the
user-facing `dq_max` is overwritten by `self.v0.max()`. -/
def mkExplicit {n m : ℕ} (q v0 : Fin (n + 2) → Fin (m + 1) → ℝ) (ddq_max : ℝ) :
    Option (Traj n m) :=
  mkWith q v0 (v0flatMax v0) ddq_max

/-- Segment durations `self.dt`, as a function of the segment index
lifted to `ℕ` (zero outside range) for the prefix sums below. -/
def durN {n m : ℕ} (tr : Traj n m) (i : ℕ) : ℝ :=
  if h : i < n + 1 then (tr.seg ⟨i, h⟩).t else 0

/-- Cumulative time axis `self.t`: `t[k]` is the sum of the first `k`
segment durations (`self.t[0] = 0`, `self.t[1:] = np.cumsum(self.dt)`). -/
def tcum {n m : ℕ} (tr : Traj n m) (k : ℕ) : ℝ :=
  ∑ i ∈ Finset.range k, durN tr i

/-- Total duration `self.t[-1]` of the trajectory. -/
def totalT {n m : ℕ} (tr : Traj n m) : ℝ := tcum tr (n + 1)

/-- Count `np.digitize(t, self.t)`: the number of boundaries `self.t[k] ≤ t`
(bins are inspected with `right=False` on an increasing boundary
array). -/
def countLE {n m : ℕ} (tr : Traj n m) (x : ℝ) : ℕ :=
  ((Finset.range (n + 2)).filter fun k => tcum tr k ≤ x).card

/-- Segment lookup of `__call__`:
`i = np.clip(np.digitize(t, self.t) - 1, 0, self.nseg - 1)` (truncated
subtraction on `ℕ` realizes the lower clip at `0`). -/
def segIdx {n m : ℕ} (tr : Traj n m) (x : ℝ) : Fin (n + 1) :=
  ⟨min (countLE tr x - 1) n, by omega⟩

/-- Acceleration-phase mask `isa = t < ta[i]` of `__call__`, per axis,
for the segment-relative time `τ`. -/
def isaP {M : ℕ} (r : SolveResult M) (j : Fin M) (τ : ℝ) : Prop := τ < r.ta j

/-- Deceleration-phase mask `isd = t > (dt[i] - td[i])` of `__call__`. -/
def isdP {M : ℕ} (r : SolveResult M) (j : Fin M) (τ : ℝ) : Prop := τ > r.t - r.td j

/-- Coast-phase mask `isl = ~isa & ~isd` of `__call__`. -/
def islP {M : ℕ} (r : SolveResult M) (j : Fin M) (τ : ℝ) : Prop :=
  ¬isaP r j τ ∧ ¬isdP r j τ

/-- The position row computed by `__call__` for one segment, one axis
and segment-relative time `τ`: the three phase formulas summed with
their boolean masks as factors, exactly as in the vectorized source
(`q0`, `q1`, `v00`, `v01` are the segment's boundary waypoints and
signed boundary velocities). -/
def segQ {M : ℕ} (q0 q1 v00 v01 : Fin M → ℝ) (r : SolveResult M) (j : Fin M) (τ : ℝ) : ℝ :=
  (q0 j + v00 j * τ + (1 / 2) * r.ddq j * τ ^ 2) * indR (isaP r j τ) +
  (q0 j + v00 j * r.ta j * (1 / 2) + r.dq j * (τ - r.ta j * (1 / 2))) * indR (islP r j τ) +
  (q1 j - v01 j * (r.t - τ) - (1 / 2) * r.ddq j * (r.t - τ) ^ 2) * indR (isdP r j τ)

/-- The position row of `__call__` at a scalar query time `t`: clip `t`
to `[0, self.t[-1]]`, locate the segment, take the segment-relative
time, and evaluate the phase formulas. -/
def callQ {n m : ℕ} (tr : Traj n m) (t : ℝ) (j : Fin (m + 1)) : ℝ :=
  let tc := min (max t 0) (totalT tr)
  let i := segIdx tr tc
  segQ (tr.q i.castSucc) (tr.q i.succ) (tr.v0 i.castSucc) (tr.v0 i.succ)
    (tr.seg i) j (tc - tcum tr (i : ℕ))

end TrapezoidalTrajectory

namespace ApproximateTrapezoidalTrajectory

/-- Padded segment durations `dt = np.concatenate(([1], dt, [1]))` of
`ApproximateTrapezoidalTrajectory.__init__`: one artificial unit-length
segment before and after the `n + 1` true segments. -/
def dtPad {n : ℕ} (dtv : Fin (n + 1) → ℝ) (k : Fin (n + 3)) : ℝ :=
  if h : 1 ≤ (k : ℕ) ∧ (k : ℕ) ≤ n + 1 then dtv ⟨(k : ℕ) - 1, by omega⟩ else 1

/-- Padded waypoints `self.q = np.concatenate(([q[0]], q, [q[-1]]))`:
the first and last waypoint are duplicated so that the boundary
segments have zero velocity. -/
def qPad {n m : ℕ} (q : Fin (n + 2) → Fin (m + 1) → ℝ) (k : Fin (n + 4))
    (j : Fin (m + 1)) : ℝ :=
  q ⟨min ((k : ℕ) - 1) (n + 1), by omega⟩ j

/-- Per-(padded-)segment linear velocities
`self.dq = np.diff(self.q, axis=0) / dt`. -/
def dqA {n m : ℕ} (q : Fin (n + 2) → Fin (m + 1) → ℝ) (dtv : Fin (n + 1) → ℝ)
    (k : Fin (n + 3)) (j : Fin (m + 1)) : ℝ :=
  (qPad q k.succ j - qPad q k.castSucc j) / dtPad dtv k

/-- Per-vertex blend durations
`self.tb = np.amax(np.abs(np.diff(self.dq, axis=0)) / ddq_max, axis=1)`:
the maximum over axes of the per-axis minimal blend time. -/
def tb {n m : ℕ} (q : Fin (n + 2) → Fin (m + 1) → ℝ) (dtv : Fin (n + 1) → ℝ)
    (ddq_max : ℝ) (k : Fin (n + 2)) : ℝ :=
  npamax fun j => |dqA q dtv k.succ j - dqA q dtv k.castSucc j| / ddq_max

/-- The feasibility assertion
`(self.tb[:-1] + self.tb[1:] <= 2.*dt[1:-1]).all()`: adjacent blend
windows must not overlap any true segment. -/
def feasible {n m : ℕ} (q : Fin (n + 2) → Fin (m + 1) → ℝ) (dtv : Fin (n + 1) → ℝ)
    (ddq_max : ℝ) : Prop :=
  ∀ i : Fin (n + 1),
    tb q dtv ddq_max i.castSucc + tb q dtv ddq_max i.succ ≤ 2 * dtv i

/-- Per-vertex blend accelerations
`self.ddq = np.diff(self.dq, axis=0) / self.tb` with rows of
zero-duration blends overwritten by `0`
(`self.ddq[self.tb[:,0]==0] = 0.`); the division-by-zero `nan` never
survives into the stored table. -/
def ddqBlend {n m : ℕ} (q : Fin (n + 2) → Fin (m + 1) → ℝ) (dtv : Fin (n + 1) → ℝ)
    (ddq_max : ℝ) (k : Fin (n + 2)) (j : Fin (m + 1)) : ℝ :=
  if tb q dtv ddq_max k = 0 then 0
  else (dqA q dtv k.succ j - dqA q dtv k.castSucc j) / tb q dtv ddq_max k

/-- Solved tables of an `ApproximateTrapezoidalTrajectory`. -/
structure ATraj (n m : ℕ) where
  q : Fin (n + 2) → Fin (m + 1) → ℝ
  dtv : Fin (n + 1) → ℝ
  dq : Fin (n + 3) → Fin (m + 1) → ℝ
  tb : Fin (n + 2) → ℝ
  ddq : Fin (n + 2) → Fin (m + 1) → ℝ

/-- Constructor `ApproximateTrapezoidalTrajectory.__init__` with explicit segment
durations `dt`: computes the blend tables; the feasibility assertion
aborts construction (`none`) when violated, so a violation never yields
a (degraded) trajectory object. -/
def mkA {n m : ℕ} (q : Fin (n + 2) → Fin (m + 1) → ℝ) (dtv : Fin (n + 1) → ℝ)
    (ddq_max : ℝ) : Option (ATraj n m) :=
  if feasible q dtv ddq_max then
    some ⟨q, dtv, dqA q dtv, tb q dtv ddq_max, ddqBlend q dtv ddq_max⟩
  else none

/-- Segment durations derived from `dq_max` when `dt` is not given:
`dt = np.amax(np.abs(np.diff(q, axis=0)) / dq_max, axis=1)`. -/
def dtFromVmax {n m : ℕ} (q : Fin (n + 2) → Fin (m + 1) → ℝ) (dq_max : ℝ)
    (i : Fin (n + 1)) : ℝ :=
  npamax fun j => |q i.succ j - q i.castSucc j| / dq_max

end ApproximateTrapezoidalTrajectory

namespace TrapezoidalTrajectory

theorem solve_isSome_iff {m : ℕ} (q0 q1 v0 v1 : Fin (m + 1) → ℝ) (dq_max ddq_max : ℝ) :
    (solve q0 q1 v0 v1 dq_max ddq_max).isSome ↔
      ∀ j, eval_constraint (q0 j) (q1 j) |v0 j| |v1 j| ddq_max := by
  unfold solve
  by_cases h : ∀ j, eval_constraint (q0 j) (q1 j) |v0 j| |v1 j| ddq_max <;> simp [h]

theorem solve_eq_some {m : ℕ} (q0 q1 v0 v1 : Fin (m + 1) → ℝ) (dq_max ddq_max : ℝ)
    (h : ∀ j, eval_constraint (q0 j) (q1 j) |v0 j| |v1 j| ddq_max) :
    solve q0 q1 v0 v1 dq_max ddq_max = some (solveTables q0 q1 v0 v1 dq_max ddq_max) := by
  unfold solve
  simp [h]

theorem mkWith_isSome_iff {n m : ℕ} (q v0 : Fin (n + 2) → Fin (m + 1) → ℝ)
    (dq_max ddq_max : ℝ) :
    (mkWith q v0 dq_max ddq_max).isSome ↔
      ∀ i : Fin (n + 1), ∀ j, eval_constraint (q i.castSucc j) (q i.succ j)
        |v0 i.castSucc j| |v0 i.succ j| ddq_max := by
  unfold mkWith
  by_cases h : ∀ i : Fin (n + 1), (segSolve q v0 dq_max ddq_max i).isSome
  · rw [dif_pos h]
    simp only [Option.isSome_some, true_iff]
    intro i
    exact (solve_isSome_iff _ _ _ _ _ _).1 (h i)
  · rw [dif_neg h]
    simp only [Option.isSome_none, Bool.false_eq_true, false_iff]
    intro hc
    exact h fun i => (solve_isSome_iff _ _ _ _ _ _).2 (hc i)

theorem mkWith_eq_some {n m : ℕ} (q v0 : Fin (n + 2) → Fin (m + 1) → ℝ)
    (dq_max ddq_max : ℝ)
    (h : ∀ i : Fin (n + 1), ∀ j, eval_constraint (q i.castSucc j) (q i.succ j)
      |v0 i.castSucc j| |v0 i.succ j| ddq_max) :
    mkWith q v0 dq_max ddq_max = some ⟨q, v0, fun i =>
      solveTables (q i.castSucc) (q i.succ) (v0 i.castSucc) (v0 i.succ) dq_max ddq_max⟩ := by
  have hseg : ∀ i : Fin (n + 1), segSolve q v0 dq_max ddq_max i =
      some (solveTables (q i.castSucc) (q i.succ) (v0 i.castSucc) (v0 i.succ)
        dq_max ddq_max) := fun i =>
    solve_eq_some (q i.castSucc) (q i.succ) (v0 i.castSucc) (v0 i.succ) dq_max ddq_max (h i)
  have hs : ∀ i : Fin (n + 1), (segSolve q v0 dq_max ddq_max i).isSome := fun i => by
    rw [hseg i]; rfl
  unfold mkWith
  rw [dif_pos hs]
  simp only [hseg, Option.get_some]

theorem mkWith_eq_none_iff {n m : ℕ} (q v0 : Fin (n + 2) → Fin (m + 1) → ℝ)
    (dq_max ddq_max : ℝ) :
    mkWith q v0 dq_max ddq_max = none ↔
      ∃ i : Fin (n + 1), ∃ j, ¬ eval_constraint (q i.castSucc j) (q i.succ j)
        |v0 i.castSucc j| |v0 i.succ j| ddq_max := by
  rw [← Option.not_isSome_iff_eq_none, mkWith_isSome_iff]
  push_neg
  rfl

end TrapezoidalTrajectory

namespace ApproximateTrapezoidalTrajectory

theorem mkA_isSome_iff {n m : ℕ} (q : Fin (n + 2) → Fin (m + 1) → ℝ)
    (dtv : Fin (n + 1) → ℝ) (ddq_max : ℝ) :
    (mkA q dtv ddq_max).isSome ↔ feasible q dtv ddq_max := by
  unfold mkA
  by_cases h : feasible q dtv ddq_max
  · rw [if_pos h]; simpa using h
  · rw [if_neg h]; simpa using h

theorem mkA_eq_none_iff {n m : ℕ} (q : Fin (n + 2) → Fin (m + 1) → ℝ)
    (dtv : Fin (n + 1) → ℝ) (ddq_max : ℝ) :
    mkA q dtv ddq_max = none ↔ ∃ i : Fin (n + 1),
      ¬ (tb q dtv ddq_max i.castSucc + tb q dtv ddq_max i.succ ≤ 2 * dtv i) := by
  rw [← Option.not_isSome_iff_eq_none, mkA_isSome_iff]
  unfold feasible
  push_neg
  simp only [not_le]

end ApproximateTrapezoidalTrajectory

theorem npamax_div {m : ℕ} (f : Fin (m + 1) → ℝ) (a : ℝ) (ha : 0 < a) :
    npamax (fun j => f j / a) = npamax f / a := by
  unfold npamax
  have hmono : Monotone fun x : ℝ => x / a := fun x y hxy => by
    exact div_le_div_of_nonneg_right hxy ha.le
  have := Finset.comp_sup'_eq_sup'_comp (Finset.univ_nonempty (α := Fin (m + 1)))
    (f := f) (fun x : ℝ => x / a) (fun x y => hmono.map_sup x y)
  exact this.symm

/-- C3: construction of a `TrapezoidalTrajectory` fails (aborts with the
infeasible-constraint assertion, producing no trajectory object, i.e.
`none`) if and only if some segment and some axis violate
`ddq_max * |q1 - q0| >= 0.5 * |dq0^2 - dq1^2|`. -/
theorem TrapezoidalTrajectory.mk_none_iff_constraint_violated {n m : ℕ}
    (q v0 : Fin (n + 2) → Fin (m + 1) → ℝ) (dq_max ddq_max : ℝ) :
    TrapezoidalTrajectory.mkWith q v0 dq_max ddq_max = none ↔
      ∃ i : Fin (n + 1), ∃ j, ddq_max * |q i.succ j - q i.castSucc j| <
        |(v0 i.castSucc j) ^ 2 - (v0 i.succ j) ^ 2| * (1 / 2) := by
  rw [TrapezoidalTrajectory.mkWith_eq_none_iff]
  simp only [TrapezoidalTrajectory.eval_constraint, sq_abs, not_le, ge_iff_le]

/-- C9: in `ApproximateTrapezoidalTrajectory` construction, a vertex
whose blend duration `tb[k]` is zero gets blend acceleration exactly
zero on every axis: the division by the blend duration is guarded and
the `nan` it would produce never reaches the stored table. -/
theorem ApproximateTrapezoidalTrajectory.zero_blend_zero_accel {n m : ℕ}
    (q : Fin (n + 2) → Fin (m + 1) → ℝ) (dtv : Fin (n + 1) → ℝ) (ddq_max : ℝ)
    (k : Fin (n + 2)) (htb : ApproximateTrapezoidalTrajectory.tb q dtv ddq_max k = 0)
    (j : Fin (m + 1)) :
    ApproximateTrapezoidalTrajectory.ddqBlend q dtv ddq_max k j = 0 := by
  unfold ApproximateTrapezoidalTrajectory.ddqBlend
  rw [if_pos htb]

theorem ApproximateTrapezoidalTrajectory.zero_blend_zero_accel_witness :
    ApproximateTrapezoidalTrajectory.ddqBlend (n := 0) (m := 0)
      (fun _ _ => (0 : ℝ)) (fun _ => (1 : ℝ)) 1 0 0 = 0 := by
  refine ApproximateTrapezoidalTrajectory.zero_blend_zero_accel
    (n := 0) (m := 0) _ _ 1 0 ?_ 0
  unfold ApproximateTrapezoidalTrajectory.tb ApproximateTrapezoidalTrajectory.dqA
    ApproximateTrapezoidalTrajectory.qPad
  simp [npamax, Finset.sup'_const]

/-- C7: each blend duration equals the maximum over axes of
`|dq[k] - dq[k-1]| / ddq_max`, and construction of an
`ApproximateTrapezoidalTrajectory` fails (aborts with no trajectory
object, `none`) if and only if some vertex pair violates
`tb[i] + tb[i+1] <= 2*dt[i]`; a violation never yields a degraded
trajectory. -/
theorem ApproximateTrapezoidalTrajectory.blend_time_and_feasibility {n m : ℕ}
    (q : Fin (n + 2) → Fin (m + 1) → ℝ) (dtv : Fin (n + 1) → ℝ) (ddq_max : ℝ)
    (ha : 0 < ddq_max) :
    (∀ k : Fin (n + 2), ApproximateTrapezoidalTrajectory.tb q dtv ddq_max k =
      npamax (fun j => |ApproximateTrapezoidalTrajectory.dqA q dtv k.succ j -
        ApproximateTrapezoidalTrajectory.dqA q dtv k.castSucc j|) / ddq_max) ∧
    (ApproximateTrapezoidalTrajectory.mkA q dtv ddq_max = none ↔
      ∃ i : Fin (n + 1), ¬ (ApproximateTrapezoidalTrajectory.tb q dtv ddq_max i.castSucc +
        ApproximateTrapezoidalTrajectory.tb q dtv ddq_max i.succ ≤ 2 * dtv i)) := by
  constructor
  · intro k
    unfold ApproximateTrapezoidalTrajectory.tb
    exact npamax_div _ _ ha
  · rw [ApproximateTrapezoidalTrajectory.mkA_eq_none_iff]

theorem ApproximateTrapezoidalTrajectory.blend_time_and_feasibility_witness :
    ApproximateTrapezoidalTrajectory.tb (n := 0) (m := 0)
      (fun _ _ => (0 : ℝ)) (fun _ => (1 : ℝ)) 1 0 =
    npamax (fun j => |ApproximateTrapezoidalTrajectory.dqA (n := 0) (m := 0)
      (fun _ _ => (0 : ℝ)) (fun _ => (1 : ℝ)) (Fin.succ 0) j -
      ApproximateTrapezoidalTrajectory.dqA (n := 0) (m := 0)
      (fun _ _ => (0 : ℝ)) (fun _ => (1 : ℝ)) (Fin.castSucc 0) j|) / 1 :=
  (ApproximateTrapezoidalTrajectory.blend_time_and_feasibility
    (fun _ _ => (0 : ℝ)) (fun _ => (1 : ℝ)) 1 (by norm_num)).1 0

/-- C6: without explicit waypoint velocities, the heuristic assigns the
first and last waypoint zero velocity, and an interior waypoint `i`
gets, per axis, `sign(q[i]-q[i-1]) * dq_max` when the displacement
signs of the two adjacent segments agree and `0` when they disagree. -/
theorem TrapezoidalTrajectory.heuristic_velocities_spec {n m : ℕ}
    (q : Fin (n + 2) → Fin (m + 1) → ℝ) (dq_max : ℝ) (j : Fin (m + 1)) :
    TrapezoidalTrajectory.v0Heur q dq_max 0 j = 0 ∧
    TrapezoidalTrajectory.v0Heur q dq_max (Fin.last (n + 1)) j = 0 ∧
    ∀ (i : ℕ) (h1 : 0 < i) (h2 : i < n + 1),
      (npsign (q ⟨i, by omega⟩ j - q ⟨i - 1, by omega⟩ j) =
          npsign (q ⟨i + 1, by omega⟩ j - q ⟨i, by omega⟩ j) →
        TrapezoidalTrajectory.v0Heur q dq_max ⟨i, by omega⟩ j =
          npsign (q ⟨i, by omega⟩ j - q ⟨i - 1, by omega⟩ j) * dq_max) ∧
      (npsign (q ⟨i, by omega⟩ j - q ⟨i - 1, by omega⟩ j) ≠
          npsign (q ⟨i + 1, by omega⟩ j - q ⟨i, by omega⟩ j) →
        TrapezoidalTrajectory.v0Heur q dq_max ⟨i, by omega⟩ j = 0) := by
  unfold TrapezoidalTrajectory.v0Heur
  refine ⟨?_, ?_, ?_⟩
  · rw [dif_neg]
    simp
  · rw [dif_neg]
    simp
  · intro i h1 h2
    constructor
    · intro hs
      rw [dif_pos ⟨h1, h2⟩, if_pos hs]
    · intro hs
      rw [dif_pos ⟨h1, h2⟩, if_neg hs]

/-- Concrete waypoints `[[0],[10],[0]]` (a direction reversal). -/
def cq6 : Fin 3 → Fin 1 → ℝ := fun i _ => if (i : ℕ) = 1 then 10 else 0

theorem TrapezoidalTrajectory.heuristic_velocities_spec_witness :
    TrapezoidalTrajectory.v0Heur (n := 1) (m := 0) cq6 5 ⟨1, by omega⟩ 0 = 0 := by
  refine ((TrapezoidalTrajectory.heuristic_velocities_spec cq6 5 0).2.2 1
    (by norm_num) (by norm_num)).2 ?_
  unfold cq6 npsign
  norm_num

/-- C2: on the dominant axis `i* = argmax h`, if
`h*ddq_max > dq_max^2 - 0.5*(dq0^2+dq1^2)` the coast velocity is
`dq_max` with `ta = (dq_max-dq0)/ddq_max`, `td = (dq_max-dq1)/ddq_max`
and the trapezoid duration formula; otherwise the peak velocity is
`sqrt(h*ddq_max + 0.5*(dq0^2+dq1^2))`, `ta`/`td` use the same
`(vlim-dq)/ddq_max` form and the duration is `ta + td`. -/
theorem TrapezoidalTrajectory.solve_dominant_axis_profile {m : ℕ}
    (q0 q1 v0 v1 : Fin (m + 1) → ℝ) (dq_max ddq_max : ℝ) :
    (TrapezoidalTrajectory.coastReachable q0 q1 v0 v1 dq_max ddq_max →
      TrapezoidalTrajectory.vlimAt q0 q1 v0 v1 dq_max ddq_max
          (TrapezoidalTrajectory.istar q0 q1) = dq_max ∧
      (TrapezoidalTrajectory.solveTables q0 q1 v0 v1 dq_max ddq_max).ta
          (TrapezoidalTrajectory.istar q0 q1) =
        (dq_max - |v0 (TrapezoidalTrajectory.istar q0 q1)|) / ddq_max ∧
      (TrapezoidalTrajectory.solveTables q0 q1 v0 v1 dq_max ddq_max).td
          (TrapezoidalTrajectory.istar q0 q1) =
        (dq_max - |v1 (TrapezoidalTrajectory.istar q0 q1)|) / ddq_max ∧
      (TrapezoidalTrajectory.solveTables q0 q1 v0 v1 dq_max ddq_max).t =
        TrapezoidalTrajectory.hStar q0 q1 / dq_max +
          (dq_max / (2 * ddq_max)) *
            (1 - |v0 (TrapezoidalTrajectory.istar q0 q1)| / dq_max) ^ 2 +
          (dq_max / (2 * ddq_max)) *
            (1 - |v1 (TrapezoidalTrajectory.istar q0 q1)| / dq_max) ^ 2) ∧
    (¬ TrapezoidalTrajectory.coastReachable q0 q1 v0 v1 dq_max ddq_max →
      TrapezoidalTrajectory.vlimAt q0 q1 v0 v1 dq_max ddq_max
          (TrapezoidalTrajectory.istar q0 q1) =
        Real.sqrt (TrapezoidalTrajectory.hStar q0 q1 * ddq_max +
          (|v0 (TrapezoidalTrajectory.istar q0 q1)| ^ 2 +
           |v1 (TrapezoidalTrajectory.istar q0 q1)| ^ 2) * (1 / 2)) ∧
      (TrapezoidalTrajectory.solveTables q0 q1 v0 v1 dq_max ddq_max).ta
          (TrapezoidalTrajectory.istar q0 q1) =
        (TrapezoidalTrajectory.vlimAt q0 q1 v0 v1 dq_max ddq_max
            (TrapezoidalTrajectory.istar q0 q1) -
          |v0 (TrapezoidalTrajectory.istar q0 q1)|) / ddq_max ∧
      (TrapezoidalTrajectory.solveTables q0 q1 v0 v1 dq_max ddq_max).td
          (TrapezoidalTrajectory.istar q0 q1) =
        (TrapezoidalTrajectory.vlimAt q0 q1 v0 v1 dq_max ddq_max
            (TrapezoidalTrajectory.istar q0 q1) -
          |v1 (TrapezoidalTrajectory.istar q0 q1)|) / ddq_max ∧
      (TrapezoidalTrajectory.solveTables q0 q1 v0 v1 dq_max ddq_max).t =
        (TrapezoidalTrajectory.solveTables q0 q1 v0 v1 dq_max ddq_max).ta
            (TrapezoidalTrajectory.istar q0 q1) +
          (TrapezoidalTrajectory.solveTables q0 q1 v0 v1 dq_max ddq_max).td
            (TrapezoidalTrajectory.istar q0 q1)) := by
  constructor
  · intro hc
    refine ⟨?_, ?_, ?_, ?_⟩ <;>
      simp [TrapezoidalTrajectory.solveTables, TrapezoidalTrajectory.vlimAt,
        TrapezoidalTrajectory.vlimStar, TrapezoidalTrajectory.taStar,
        TrapezoidalTrajectory.tdStar, TrapezoidalTrajectory.tTotal, hc]
  · intro hc
    refine ⟨?_, ?_, ?_, ?_⟩ <;>
      simp [TrapezoidalTrajectory.solveTables, TrapezoidalTrajectory.vlimAt,
        TrapezoidalTrajectory.vlimStar, TrapezoidalTrajectory.taStar,
        TrapezoidalTrajectory.tdStar, TrapezoidalTrajectory.tTotal, hc]

theorem TrapezoidalTrajectory.solve_dominant_axis_profile_witness :
    TrapezoidalTrajectory.vlimAt (m := 0) (fun _ => (0 : ℝ)) (fun _ => (10 : ℝ))
      (fun _ => (0 : ℝ)) (fun _ => (0 : ℝ)) 5 10
      (TrapezoidalTrajectory.istar (fun _ => (0 : ℝ)) (fun _ => (10 : ℝ))) = 5 := by
  refine ((TrapezoidalTrajectory.solve_dominant_axis_profile
    (fun _ => (0 : ℝ)) (fun _ => (10 : ℝ)) (fun _ => (0 : ℝ)) (fun _ => (0 : ℝ))
    5 10).1 ?_).1
  unfold TrapezoidalTrajectory.coastReachable TrapezoidalTrajectory.hStar
  norm_num

theorem tb_anti {n m : ℕ} (q : Fin (n + 2) → Fin (m + 1) → ℝ) (dtv : Fin (n + 1) → ℝ)
    (a a' : ℝ) (ha : 0 < a) (haa : a ≤ a') (k : Fin (n + 2)) :
    ApproximateTrapezoidalTrajectory.tb q dtv a' k ≤
      ApproximateTrapezoidalTrajectory.tb q dtv a k := by
  unfold ApproximateTrapezoidalTrajectory.tb npamax
  refine Finset.sup'_mono_fun fun j _ => ?_
  exact div_le_div_of_nonneg_left (abs_nonneg _) ha haa

/-- C8: increasing the acceleration limit `ddq_max` alone never turns a
feasible construction infeasible, for the exact variant (first
conjunct) and for the approximate variant (second conjunct, with
positive limits). -/
theorem feasibility_monotone_in_ddq_max {n m : ℕ}
    (q v0 : Fin (n + 2) → Fin (m + 1) → ℝ) (dq_max : ℝ) (dtv : Fin (n + 1) → ℝ)
    (a a' : ℝ) :
    (a ≤ a' → (TrapezoidalTrajectory.mkWith q v0 dq_max a).isSome →
      (TrapezoidalTrajectory.mkWith q v0 dq_max a').isSome) ∧
    (0 < a → a ≤ a' → (ApproximateTrapezoidalTrajectory.mkA q dtv a).isSome →
      (ApproximateTrapezoidalTrajectory.mkA q dtv a').isSome) := by
  constructor
  · intro haa h
    rw [TrapezoidalTrajectory.mkWith_isSome_iff] at h ⊢
    intro i j
    have hc := h i j
    unfold TrapezoidalTrajectory.eval_constraint at hc ⊢
    calc |(|v0 i.castSucc j|) ^ 2 - (|v0 i.succ j|) ^ 2| * (1 / 2)
        ≤ a * |q i.succ j - q i.castSucc j| := hc
      _ ≤ a' * |q i.succ j - q i.castSucc j| :=
          mul_le_mul_of_nonneg_right haa (abs_nonneg _)
  · intro ha haa h
    rw [ApproximateTrapezoidalTrajectory.mkA_isSome_iff] at h ⊢
    intro i
    calc ApproximateTrapezoidalTrajectory.tb q dtv a' i.castSucc +
          ApproximateTrapezoidalTrajectory.tb q dtv a' i.succ
        ≤ ApproximateTrapezoidalTrajectory.tb q dtv a i.castSucc +
          ApproximateTrapezoidalTrajectory.tb q dtv a i.succ :=
          add_le_add (tb_anti q dtv a a' ha haa _) (tb_anti q dtv a a' ha haa _)
      _ ≤ 2 * dtv i := h i

theorem feasibility_monotone_in_ddq_max_witness :
    ((TrapezoidalTrajectory.mkWith (n := 0) (m := 0) (fun i _ => if (i : ℕ) = 0 then 0 else 1)
        (fun _ _ => (0 : ℝ)) 1 2).isSome ∧
     (ApproximateTrapezoidalTrajectory.mkA (n := 0) (m := 0)
        (fun i _ => if (i : ℕ) = 0 then 0 else 1) (fun _ => (1 : ℝ)) 2).isSome) := by
  have hmain := feasibility_monotone_in_ddq_max (n := 0) (m := 0)
    (fun i _ => if (i : ℕ) = 0 then 0 else 1) (fun _ _ => (0 : ℝ)) 1
    (fun _ => (1 : ℝ)) 1 2
  constructor
  · refine hmain.1 (by norm_num) ?_
    rw [TrapezoidalTrajectory.mkWith_isSome_iff]
    intro i j
    unfold TrapezoidalTrajectory.eval_constraint
    norm_num
  · refine hmain.2 (by norm_num) (by norm_num) ?_
    rw [ApproximateTrapezoidalTrajectory.mkA_isSome_iff]
    intro i
    fin_cases i
    unfold ApproximateTrapezoidalTrajectory.tb ApproximateTrapezoidalTrajectory.dqA
      ApproximateTrapezoidalTrajectory.qPad ApproximateTrapezoidalTrajectory.dtPad
    norm_num [npamax, Finset.sup'_const]

/-- C10: for every axis other than the dominant one, `solve` leaves
`ta` and `td` at zero (only the coast velocity is computed), so the
evaluator classifies the whole segment `0 <= τ <= dt` as coast phase on
that axis and its position formula is the pure coast line
`q0 + dq * τ`. -/
theorem TrapezoidalTrajectory.nondominant_axis_coasts {m : ℕ}
    (q0 q1 v0 v1 : Fin (m + 1) → ℝ) (dq_max ddq_max : ℝ) (j : Fin (m + 1))
    (hj : j ≠ TrapezoidalTrajectory.istar q0 q1) :
    (TrapezoidalTrajectory.solveTables q0 q1 v0 v1 dq_max ddq_max).ta j = 0 ∧
    (TrapezoidalTrajectory.solveTables q0 q1 v0 v1 dq_max ddq_max).td j = 0 ∧
    ∀ τ : ℝ, 0 ≤ τ →
      τ ≤ (TrapezoidalTrajectory.solveTables q0 q1 v0 v1 dq_max ddq_max).t →
      ¬ TrapezoidalTrajectory.isaP
          (TrapezoidalTrajectory.solveTables q0 q1 v0 v1 dq_max ddq_max) j τ ∧
      ¬ TrapezoidalTrajectory.isdP
          (TrapezoidalTrajectory.solveTables q0 q1 v0 v1 dq_max ddq_max) j τ ∧
      TrapezoidalTrajectory.islP
          (TrapezoidalTrajectory.solveTables q0 q1 v0 v1 dq_max ddq_max) j τ ∧
      TrapezoidalTrajectory.segQ q0 q1 v0 v1
          (TrapezoidalTrajectory.solveTables q0 q1 v0 v1 dq_max ddq_max) j τ =
        q0 j + (TrapezoidalTrajectory.solveTables q0 q1 v0 v1 dq_max ddq_max).dq j * τ := by
  have hta : (TrapezoidalTrajectory.solveTables q0 q1 v0 v1 dq_max ddq_max).ta j = 0 := by
    simp [TrapezoidalTrajectory.solveTables, hj]
  have htd : (TrapezoidalTrajectory.solveTables q0 q1 v0 v1 dq_max ddq_max).td j = 0 := by
    simp [TrapezoidalTrajectory.solveTables, hj]
  refine ⟨hta, htd, fun τ h0 hT => ?_⟩
  have hisa : ¬ TrapezoidalTrajectory.isaP
      (TrapezoidalTrajectory.solveTables q0 q1 v0 v1 dq_max ddq_max) j τ := by
    unfold TrapezoidalTrajectory.isaP
    rw [hta]
    exact not_lt.2 h0
  have hisd : ¬ TrapezoidalTrajectory.isdP
      (TrapezoidalTrajectory.solveTables q0 q1 v0 v1 dq_max ddq_max) j τ := by
    unfold TrapezoidalTrajectory.isdP
    rw [htd, sub_zero]
    exact not_lt.2 hT
  have hisl : TrapezoidalTrajectory.islP
      (TrapezoidalTrajectory.solveTables q0 q1 v0 v1 dq_max ddq_max) j τ := by
    unfold TrapezoidalTrajectory.islP
    exact ⟨hisa, hisd⟩
  refine ⟨hisa, hisd, hisl, ?_⟩
  unfold TrapezoidalTrajectory.segQ indR
  rw [if_neg hisa, if_neg hisd, if_pos hisl, hta]
  ring

/-- First row of the two-axis waypoint pair `[[0,0],[2,1]]`. -/
def cr0 : Fin 2 → ℝ := fun _ => 0

/-- Second row of the two-axis waypoint pair `[[0,0],[2,1]]`. -/
def cr1 : Fin 2 → ℝ := fun j => if (j : ℕ) = 0 then 2 else 1

/-- Zero boundary velocities for the pair above. -/
def cv0 : Fin 2 → ℝ := fun _ => 0

theorem istar_cr : TrapezoidalTrajectory.istar cr0 cr1 = 0 := by
  apply Fin.ext
  show npargmax (List.ofFn fun j => |cr1 j - cr0 j|) = (0 : Fin 2).val
  unfold cr0 cr1
  norm_num [List.ofFn_succ, npargmax, argmaxGo]

theorem coastReachable_cr : TrapezoidalTrajectory.coastReachable cr0 cr1 cv0 cv0 1 1 := by
  unfold TrapezoidalTrajectory.coastReachable TrapezoidalTrajectory.hStar
  rw [istar_cr]
  unfold cr0 cr1 cv0
  norm_num

theorem tTotal_cr : TrapezoidalTrajectory.tTotal cr0 cr1 cv0 cv0 1 1 = 3 := by
  unfold TrapezoidalTrajectory.tTotal
  rw [if_pos coastReachable_cr]
  unfold TrapezoidalTrajectory.hStar
  rw [istar_cr]
  unfold cr0 cr1 cv0
  norm_num

theorem TrapezoidalTrajectory.nondominant_axis_coasts_witness :
    TrapezoidalTrajectory.segQ cr0 cr1 cv0 cv0
        (TrapezoidalTrajectory.solveTables cr0 cr1 cv0 cv0 1 1) 1 1 =
      cr0 1 + (TrapezoidalTrajectory.solveTables cr0 cr1 cv0 cv0 1 1).dq 1 * 1 := by
  have hj : (1 : Fin 2) ≠ TrapezoidalTrajectory.istar cr0 cr1 := by
    rw [istar_cr]
    decide
  have ht : (TrapezoidalTrajectory.solveTables cr0 cr1 cv0 cv0 1 1).t = 3 := tTotal_cr
  exact ((TrapezoidalTrajectory.nondominant_axis_coasts cr0 cr1 cv0 cv0 1 1 1 hj).2.2
    1 (by norm_num) (by rw [ht]; norm_num)).2.2.2


theorem ta_td_le_t_core {m : ℕ} (q0 q1 v0 v1 : Fin (m + 1) → ℝ) (dq_max ddq_max : ℝ)
    (hv : 0 < dq_max) (ha : 0 < ddq_max)
    (hcon : ∀ j, TrapezoidalTrajectory.eval_constraint (q0 j) (q1 j) |v0 j| |v1 j| ddq_max)
    (j : Fin (m + 1)) :
    (TrapezoidalTrajectory.solveTables q0 q1 v0 v1 dq_max ddq_max).ta j +
      (TrapezoidalTrajectory.solveTables q0 q1 v0 v1 dq_max ddq_max).td j ≤
      (TrapezoidalTrajectory.solveTables q0 q1 v0 v1 dq_max ddq_max).t := by
  have hh : 0 ≤ TrapezoidalTrajectory.hStar q0 q1 := abs_nonneg _
  have hx : (0 : ℝ) ≤ |v0 (TrapezoidalTrajectory.istar q0 q1)| := abs_nonneg _
  have hy : (0 : ℝ) ≤ |v1 (TrapezoidalTrajectory.istar q0 q1)| := abs_nonneg _
  have hco : TrapezoidalTrajectory.hStar q0 q1 * ddq_max ≥
      (|v0 (TrapezoidalTrajectory.istar q0 q1)| ^ 2 -
        |v1 (TrapezoidalTrajectory.istar q0 q1)| ^ 2) * (1 / 2) ∧
      TrapezoidalTrajectory.hStar q0 q1 * ddq_max ≥
      (|v1 (TrapezoidalTrajectory.istar q0 q1)| ^ 2 -
        |v0 (TrapezoidalTrajectory.istar q0 q1)| ^ 2) * (1 / 2) := by
    have hc := hcon (TrapezoidalTrajectory.istar q0 q1)
    rw [TrapezoidalTrajectory.eval_constraint] at hc
    rw [TrapezoidalTrajectory.hStar]
    constructor
    · have h1 := le_abs_self (|v0 (TrapezoidalTrajectory.istar q0 q1)| ^ 2 -
        |v1 (TrapezoidalTrajectory.istar q0 q1)| ^ 2)
      nlinarith
    · have h2 := neg_abs_le (|v0 (TrapezoidalTrajectory.istar q0 q1)| ^ 2 -
        |v1 (TrapezoidalTrajectory.istar q0 q1)| ^ 2)
      nlinarith
  by_cases hj : j = TrapezoidalTrajectory.istar q0 q1
  · subst hj
    by_cases hc : TrapezoidalTrajectory.coastReachable q0 q1 v0 v1 dq_max ddq_max
    · simp only [TrapezoidalTrajectory.solveTables, if_pos rfl, eq_self_iff_true, if_true,
        TrapezoidalTrajectory.taStar, TrapezoidalTrajectory.tdStar,
        TrapezoidalTrajectory.vlimStar, TrapezoidalTrajectory.tTotal, hc]
      set x := |v0 (TrapezoidalTrajectory.istar q0 q1)| with hxdef
      set y := |v1 (TrapezoidalTrajectory.istar q0 q1)| with hydef
      set h := TrapezoidalTrajectory.hStar q0 q1 with hhdef
      have hcc : h * ddq_max > dq_max ^ 2 - (x ^ 2 + y ^ 2) * (1 / 2) := hc
      have key : h / dq_max + (dq_max / (2 * ddq_max)) * (1 - x / dq_max) ^ 2 +
            (dq_max / (2 * ddq_max)) * (1 - y / dq_max) ^ 2 -
            ((dq_max - x) / ddq_max + (dq_max - y) / ddq_max) =
          (2 * ddq_max * h - 2 * dq_max ^ 2 + x ^ 2 + y ^ 2) / (2 * ddq_max * dq_max) := by
        field_simp
        ring
      have hnum : 0 < 2 * ddq_max * h - 2 * dq_max ^ 2 + x ^ 2 + y ^ 2 := by nlinarith
      have hden : 0 < 2 * ddq_max * dq_max := by positivity
      have hq := div_pos hnum hden
      linarith
    · simp only [TrapezoidalTrajectory.solveTables, if_pos rfl, eq_self_iff_true, if_true,
        TrapezoidalTrajectory.tTotal, hc, if_false]
      exact le_refl _
  · have h0 : (TrapezoidalTrajectory.solveTables q0 q1 v0 v1 dq_max ddq_max).ta j = 0 := by
      simp [TrapezoidalTrajectory.solveTables, hj]
    have h0' : (TrapezoidalTrajectory.solveTables q0 q1 v0 v1 dq_max ddq_max).td j = 0 := by
      simp [TrapezoidalTrajectory.solveTables, hj]
    rw [h0, h0', add_zero]
    show (0 : ℝ) ≤ TrapezoidalTrajectory.tTotal q0 q1 v0 v1 dq_max ddq_max
    by_cases hc : TrapezoidalTrajectory.coastReachable q0 q1 v0 v1 dq_max ddq_max
    · rw [TrapezoidalTrajectory.tTotal, if_pos hc]
      have h1 : 0 ≤ TrapezoidalTrajectory.hStar q0 q1 / dq_max := div_nonneg hh hv.le
      have h2 : 0 ≤ (dq_max / (2 * ddq_max)) *
          (1 - |v0 (TrapezoidalTrajectory.istar q0 q1)| / dq_max) ^ 2 := by positivity
      have h3 : 0 ≤ (dq_max / (2 * ddq_max)) *
          (1 - |v1 (TrapezoidalTrajectory.istar q0 q1)| / dq_max) ^ 2 := by positivity
      linarith
    · rw [TrapezoidalTrajectory.tTotal, if_neg hc]
      have hsq0 : |v0 (TrapezoidalTrajectory.istar q0 q1)| ^ 2 ≤
          TrapezoidalTrajectory.hStar q0 q1 * ddq_max +
            (|v0 (TrapezoidalTrajectory.istar q0 q1)| ^ 2 +
             |v1 (TrapezoidalTrajectory.istar q0 q1)| ^ 2) * (1 / 2) := by
        have := hco.1
        nlinarith
      have hsq1 : |v1 (TrapezoidalTrajectory.istar q0 q1)| ^ 2 ≤
          TrapezoidalTrajectory.hStar q0 q1 * ddq_max +
            (|v0 (TrapezoidalTrajectory.istar q0 q1)| ^ 2 +
             |v1 (TrapezoidalTrajectory.istar q0 q1)| ^ 2) * (1 / 2) := by
        have := hco.2
        nlinarith
      have hta : 0 ≤ TrapezoidalTrajectory.taStar q0 q1 v0 v1 dq_max ddq_max := by
        rw [TrapezoidalTrajectory.taStar, TrapezoidalTrajectory.vlimStar, if_neg hc]
        refine div_nonneg (sub_nonneg.2 ?_) ha.le
        exact Real.le_sqrt_of_sq_le hsq0
      have htd : 0 ≤ TrapezoidalTrajectory.tdStar q0 q1 v0 v1 dq_max ddq_max := by
        rw [TrapezoidalTrajectory.tdStar, TrapezoidalTrajectory.vlimStar, if_neg hc]
        refine div_nonneg (sub_nonneg.2 ?_) ha.le
        exact Real.le_sqrt_of_sq_le hsq1
      linarith

/-- C5 (amended): for every successfully constructed
`TrapezoidalTrajectory` with positive velocity and acceleration limits,
every segment and every axis satisfy `ta + td <= dt`; the segment
duration `dt` is stored as a single scalar (`SolveResult.t`) shared by
all axes of the segment. -/
theorem TrapezoidalTrajectory.ta_td_le_dt_of_pos_limits {n m : ℕ}
    (q v0 : Fin (n + 2) → Fin (m + 1) → ℝ) (dq_max ddq_max : ℝ) (tr : Traj n m)
    (hv : 0 < dq_max) (ha : 0 < ddq_max)
    (hmk : TrapezoidalTrajectory.mkWith q v0 dq_max ddq_max = some tr)
    (i : Fin (n + 1)) (j : Fin (m + 1)) :
    (tr.seg i).ta j + (tr.seg i).td j ≤ (tr.seg i).t := by
  have hsome : (TrapezoidalTrajectory.mkWith q v0 dq_max ddq_max).isSome := by
    rw [hmk]; rfl
  have hcon := (TrapezoidalTrajectory.mkWith_isSome_iff q v0 dq_max ddq_max).1 hsome
  have heq := TrapezoidalTrajectory.mkWith_eq_some q v0 dq_max ddq_max hcon
  rw [hmk] at heq
  have htr : tr = ⟨q, v0, fun i => TrapezoidalTrajectory.solveTables (q i.castSucc)
      (q i.succ) (v0 i.castSucc) (v0 i.succ) dq_max ddq_max⟩ := Option.some_inj.1 heq
  subst htr
  exact ta_td_le_t_core (q i.castSucc) (q i.succ) (v0 i.castSucc) (v0 i.succ)
    dq_max ddq_max hv ha (hcon i) j

/-- Single-axis waypoints `[[0],[10]]`. -/
def cqw : Fin 2 → Fin 1 → ℝ := fun i _ => if (i : ℕ) = 0 then 0 else 10

/-- Zero waypoint velocities for `cqw`. -/
def cvw : Fin 2 → Fin 1 → ℝ := fun _ _ => 0

/-- The trajectory object built from `cqw` with `dq_max = 5`,
`ddq_max = 10`. -/
def trW : Traj 0 0 :=
  ⟨cqw, cvw, fun i => TrapezoidalTrajectory.solveTables (cqw i.castSucc) (cqw i.succ)
    (cvw i.castSucc) (cvw i.succ) 5 10⟩

theorem TrapezoidalTrajectory.ta_td_le_dt_of_pos_limits_witness :
    (trW.seg 0).ta 0 + (trW.seg 0).td 0 ≤ (trW.seg 0).t := by
  have hmk : TrapezoidalTrajectory.mkWith cqw cvw 5 10 = some trW := by
    exact TrapezoidalTrajectory.mkWith_eq_some cqw cvw 5 10 (by
      intro i j
      fin_cases i
      unfold TrapezoidalTrajectory.eval_constraint cqw cvw
      norm_num)
  exact TrapezoidalTrajectory.ta_td_le_dt_of_pos_limits cqw cvw 5 10 trW
    (by norm_num) (by norm_num) hmk 0 0

/-- Single-axis waypoints `[[0],[5]]`. -/
def cqE : Fin 2 → Fin 1 → ℝ := fun i _ => if (i : ℕ) = 0 then 0 else 5

/-- Explicit waypoint velocities `[[-1],[-1]]` for `cqE`. -/
def cvE : Fin 2 → Fin 1 → ℝ := fun _ _ => -1

/-- The trajectory object Python builds from `cqE`, `cvE`,
`ddq_max = 1` (the effective velocity limit is `self.v0.max() = -1`). -/
def trE : Traj 0 0 :=
  ⟨cqE, cvE, fun i => TrapezoidalTrajectory.solveTables (cqE i.castSucc) (cqE i.succ)
    (cvE i.castSucc) (cvE i.succ) (TrapezoidalTrajectory.v0flatMax cvE) 1⟩

theorem cqE_row0 : cqE (Fin.castSucc 0) = fun _ => (0 : ℝ) := by
  funext j
  simp [cqE]

theorem cqE_row1 : cqE (Fin.succ 0) = fun _ => (5 : ℝ) := by
  funext j
  simp [cqE]

theorem cvE_row0 : cvE (Fin.castSucc 0) = fun _ => (-1 : ℝ) := rfl

theorem cvE_row1 : cvE (Fin.succ 0) = fun _ => (-1 : ℝ) := rfl

theorem v0flatMax_cvE : TrapezoidalTrajectory.v0flatMax cvE = -1 := by
  unfold TrapezoidalTrajectory.v0flatMax cvE
  simp [Finset.sup'_const]

theorem coastReachable_cE : TrapezoidalTrajectory.coastReachable
    (fun _ : Fin 1 => (0 : ℝ)) (fun _ => (5 : ℝ)) (fun _ => (-1 : ℝ))
    (fun _ => (-1 : ℝ)) (-1) 1 := by
  unfold TrapezoidalTrajectory.coastReachable TrapezoidalTrajectory.hStar
  norm_num

/-- C5 counterexample: with explicit all-negative waypoint velocities
the effective `dq_max = self.v0.max()` is negative; construction
succeeds (the feasibility assertion passes) yet the solved segment has
`ta + td = -4 > dt = -9`. -/
theorem TrapezoidalTrajectory.ta_td_le_dt_counterexample :
    TrapezoidalTrajectory.mkExplicit cqE cvE 1 = some trE ∧
    ¬ ((trE.seg 0).ta 0 + (trE.seg 0).td 0 ≤ (trE.seg 0).t) := by
  constructor
  · show TrapezoidalTrajectory.mkWith cqE cvE (TrapezoidalTrajectory.v0flatMax cvE) 1 =
      some trE
    refine TrapezoidalTrajectory.mkWith_eq_some cqE cvE _ 1 ?_
    intro i j
    fin_cases i
    unfold TrapezoidalTrajectory.eval_constraint cqE cvE
    norm_num
  · have hr : trE.seg 0 = TrapezoidalTrajectory.solveTables (fun _ => (0 : ℝ))
        (fun _ => (5 : ℝ)) (fun _ => (-1 : ℝ)) (fun _ => (-1 : ℝ)) (-1) 1 := by
      show TrapezoidalTrajectory.solveTables (cqE (Fin.castSucc 0)) (cqE (Fin.succ 0))
          (cvE (Fin.castSucc 0)) (cvE (Fin.succ 0))
          (TrapezoidalTrajectory.v0flatMax cvE) 1 = _
      rw [cqE_row0, cqE_row1, cvE_row0, cvE_row1, v0flatMax_cvE]
    rw [hr]
    simp only [TrapezoidalTrajectory.solveTables]
    rw [if_pos (Fin.eq_zero _).symm, if_pos (Fin.eq_zero _).symm]
    unfold TrapezoidalTrajectory.taStar TrapezoidalTrajectory.tdStar
      TrapezoidalTrajectory.vlimStar TrapezoidalTrajectory.tTotal
    simp only [coastReachable_cE, if_true]
    unfold TrapezoidalTrajectory.hStar
    norm_num

/-- First waypoint `(0, 0)` of the C4 failing input. -/
def c4r0 : Fin 2 → ℝ := fun _ => 0

/-- Second waypoint `(1, 99/100)` of the C4 failing input. -/
def c4r1 : Fin 2 → ℝ := fun j => if (j : ℕ) = 0 then 1 else 99 / 100

/-- Waypoint velocities `(10, 0)` at both waypoints. -/
def c4v : Fin 2 → ℝ := fun j => if (j : ℕ) = 0 then 10 else 0

/-- Waypoint matrix `[[0,0],[1,0.99]]`. -/
def cq4 : Fin 2 → Fin 2 → ℝ := fun i => if (i : ℕ) = 0 then c4r0 else c4r1

/-- Velocity matrix `[[10,0],[10,0]]`. -/
def cv4 : Fin 2 → Fin 2 → ℝ := fun _ => c4v

/-- The trajectory object Python builds from `cq4`, `cv4`, `ddq_max=1`. -/
def tr4 : Traj 0 1 :=
  ⟨cq4, cv4, fun i => TrapezoidalTrajectory.solveTables (cq4 i.castSucc) (cq4 i.succ)
    (cv4 i.castSucc) (cv4 i.succ) (TrapezoidalTrajectory.v0flatMax cv4) 1⟩

theorem v0flatMax_cv4 : TrapezoidalTrajectory.v0flatMax cv4 = 10 := by
  unfold TrapezoidalTrajectory.v0flatMax
  apply le_antisymm
  · apply Finset.sup'_le
    intro b _
    by_cases hb : (b.2 : ℕ) = 0 <;> simp [cv4, c4v, hb]
  · have := Finset.le_sup' (f := fun p : Fin 2 × Fin 2 => cv4 p.1 p.2)
      (Finset.mem_univ ((0 : Fin 2), (0 : Fin 2)))
    simpa [cv4, c4v] using this

theorem istar_c4 : TrapezoidalTrajectory.istar c4r0 c4r1 = 0 := by
  apply Fin.ext
  show npargmax (List.ofFn fun j => |c4r1 j - c4r0 j|) = (0 : Fin 2).val
  unfold c4r0 c4r1
  norm_num [List.ofFn_succ, npargmax, argmaxGo, abs_of_nonneg]

theorem coastReachable_c4 : TrapezoidalTrajectory.coastReachable c4r0 c4r1 c4v c4v 10 1 := by
  unfold TrapezoidalTrajectory.coastReachable TrapezoidalTrajectory.hStar
  rw [istar_c4]
  unfold c4r0 c4r1 c4v
  norm_num

theorem tTotal_c4 : TrapezoidalTrajectory.tTotal c4r0 c4r1 c4v c4v 10 1 = 1 / 10 := by
  unfold TrapezoidalTrajectory.tTotal
  rw [if_pos coastReachable_c4]
  unfold TrapezoidalTrajectory.hStar
  rw [istar_c4]
  unfold c4r0 c4r1 c4v
  norm_num

/-- C4 refutation: at the failing input `[[0,0],[1,0.99]]` with
waypoint velocities `(10,0)` at both ends and `ddq_max = 1`, every
per-axis feasibility precheck passes and construction succeeds (no
error is reported to the caller), although the discriminant used for
the non-dominant axis 1 is negative (`np.sqrt` of it yields `nan`
silently, with only a runtime warning). -/
theorem TrapezoidalTrajectory.negative_discriminant_not_reported :
    TrapezoidalTrajectory.mkExplicit cq4 cv4 1 = some tr4 ∧
    TrapezoidalTrajectory.disc |c4r1 1 - c4r0 1| |c4v 1| |c4v 1| 1
      (TrapezoidalTrajectory.tTotal c4r0 c4r1 c4v c4v
        (TrapezoidalTrajectory.v0flatMax cv4) 1) < 0 := by
  constructor
  · show TrapezoidalTrajectory.mkWith cq4 cv4 (TrapezoidalTrajectory.v0flatMax cv4) 1 =
      some tr4
    refine TrapezoidalTrajectory.mkWith_eq_some cq4 cv4 _ 1 ?_
    intro i j
    fin_cases i
    unfold TrapezoidalTrajectory.eval_constraint cq4 cv4 c4r0 c4r1 c4v
    by_cases hj : (j : ℕ) = 0 <;> simp [hj]
  · rw [v0flatMax_cv4, tTotal_c4]
    unfold TrapezoidalTrajectory.disc c4r0 c4r1 c4v
    norm_num [abs_of_nonneg]

theorem segQ_coast_of_nondominant {m : ℕ} (q0 q1 v0 v1 : Fin (m + 1) → ℝ)
    (dq_max ddq_max : ℝ) (j : Fin (m + 1)) (hj : j ≠ TrapezoidalTrajectory.istar q0 q1)
    (τ : ℝ) (h0 : 0 ≤ τ)
    (hT : τ ≤ (TrapezoidalTrajectory.solveTables q0 q1 v0 v1 dq_max ddq_max).t) :
    TrapezoidalTrajectory.segQ q0 q1 v0 v1
        (TrapezoidalTrajectory.solveTables q0 q1 v0 v1 dq_max ddq_max) j τ =
      q0 j + (TrapezoidalTrajectory.solveTables q0 q1 v0 v1 dq_max ddq_max).dq j * τ := by
  have hta : (TrapezoidalTrajectory.solveTables q0 q1 v0 v1 dq_max ddq_max).ta j = 0 := by
    simp [TrapezoidalTrajectory.solveTables, hj]
  have htd : (TrapezoidalTrajectory.solveTables q0 q1 v0 v1 dq_max ddq_max).td j = 0 := by
    simp [TrapezoidalTrajectory.solveTables, hj]
  have hisa : ¬ TrapezoidalTrajectory.isaP
      (TrapezoidalTrajectory.solveTables q0 q1 v0 v1 dq_max ddq_max) j τ := by
    unfold TrapezoidalTrajectory.isaP
    rw [hta]
    exact not_lt.2 h0
  have hisd : ¬ TrapezoidalTrajectory.isdP
      (TrapezoidalTrajectory.solveTables q0 q1 v0 v1 dq_max ddq_max) j τ := by
    unfold TrapezoidalTrajectory.isdP
    rw [htd, sub_zero]
    exact not_lt.2 hT
  have hisl : TrapezoidalTrajectory.islP
      (TrapezoidalTrajectory.solveTables q0 q1 v0 v1 dq_max ddq_max) j τ := by
    unfold TrapezoidalTrajectory.islP
    exact ⟨hisa, hisd⟩
  unfold TrapezoidalTrajectory.segQ indR
  rw [if_neg hisa, if_neg hisd, if_pos hisl, hta]
  ring

/-- Waypoint matrix `[[0,0],[2,1]]`. -/
def crq : Fin 2 → Fin 2 → ℝ := fun i => if (i : ℕ) = 0 then cr0 else cr1

theorem v0Heur_two_rows {m : ℕ} (q : Fin 2 → Fin (m + 1) → ℝ) (dq_max : ℝ)
    (i : Fin 2) (j : Fin (m + 1)) :
    TrapezoidalTrajectory.v0Heur (n := 0) q dq_max i j = 0 := by
  unfold TrapezoidalTrajectory.v0Heur
  rw [dif_neg]
  rintro ⟨h1, h2⟩
  omega

/-- The trajectory object Python builds from `crq` with heuristic
velocities, `dq_max = 1` and `ddq_max = 1`. -/
def trC1 : Traj 0 1 :=
  ⟨crq, TrapezoidalTrajectory.v0Heur crq 1, fun i =>
    TrapezoidalTrajectory.solveTables (crq i.castSucc) (crq i.succ)
      (TrapezoidalTrajectory.v0Heur crq 1 i.castSucc)
      (TrapezoidalTrajectory.v0Heur crq 1 i.succ) 1 1⟩

theorem crq_row0 : crq (Fin.castSucc 0) = cr0 := rfl

theorem crq_row1 : crq (Fin.succ 0) = cr1 := rfl

theorem v0Heur_crq_row0 : TrapezoidalTrajectory.v0Heur (n := 0) crq 1 (Fin.castSucc 0) = cv0 := by
  funext j
  rw [v0Heur_two_rows]
  rfl

theorem v0Heur_crq_row1 : TrapezoidalTrajectory.v0Heur (n := 0) crq 1 (Fin.succ 0) = cv0 := by
  funext j
  rw [v0Heur_two_rows]
  rfl

theorem trC1_seg : trC1.seg 0 = TrapezoidalTrajectory.solveTables cr0 cr1 cv0 cv0 1 1 := by
  show TrapezoidalTrajectory.solveTables (crq (Fin.castSucc 0)) (crq (Fin.succ 0))
      (TrapezoidalTrajectory.v0Heur crq 1 (Fin.castSucc 0))
      (TrapezoidalTrajectory.v0Heur crq 1 (Fin.succ 0)) 1 1 = _
  rw [crq_row0, crq_row1, v0Heur_crq_row0, v0Heur_crq_row1]

theorem tcum_trC1_zero : TrapezoidalTrajectory.tcum trC1 0 = 0 := by
  simp [TrapezoidalTrajectory.tcum]

theorem totalT_trC1 : TrapezoidalTrajectory.totalT trC1 = 3 := by
  unfold TrapezoidalTrajectory.totalT TrapezoidalTrajectory.tcum
  rw [Finset.sum_range_one]
  unfold TrapezoidalTrajectory.durN
  rw [dif_pos (by omega : (0 : ℕ) < 0 + 1)]
  show (trC1.seg 0).t = 3
  rw [trC1_seg]
  exact tTotal_cr

theorem dq_cr_axis1 : (TrapezoidalTrajectory.solveTables cr0 cr1 cv0 cv0 1 1).dq 1 =
    (3 - Real.sqrt 5) * (1 / 2) := by
  have hj : (1 : Fin 2) ≠ TrapezoidalTrajectory.istar cr0 cr1 := by
    rw [istar_cr]
    decide
  show npsign (cr1 1 - cr0 1) * TrapezoidalTrajectory.vlimAt cr0 cr1 cv0 cv0 1 1 1 = _
  rw [TrapezoidalTrajectory.vlimAt, if_neg hj, tTotal_cr]
  unfold TrapezoidalTrajectory.vlimOther TrapezoidalTrajectory.disc npsign cr0 cr1 cv0
  norm_num

/-- C1 refutation: from waypoints `[[0,0],[2,1]]` with heuristic (zero)
boundary velocities, `dq_max = 1`, `ddq_max = 1`, construction succeeds
and the total duration is `3`, but evaluating the trajectory at the
final cumulative boundary time returns `3*(3-sqrt 5)/2 ≈ 1.146` on
axis 1 instead of the final waypoint coordinate `1`: `solve` leaves
`ta`/`td` of non-dominant axes at zero (contrary to its own comment),
so the evaluator coasts axis 1 through the whole segment and misses the
waypoint. -/
theorem TrapezoidalTrajectory.final_waypoint_missed_on_nondominant_axis :
    TrapezoidalTrajectory.mkHeur crq 1 1 = some trC1 ∧
    TrapezoidalTrajectory.totalT trC1 = 3 ∧
    TrapezoidalTrajectory.callQ trC1 3 1 ≠ crq 1 1 := by
  refine ⟨?_, totalT_trC1, ?_⟩
  · show TrapezoidalTrajectory.mkWith crq (TrapezoidalTrajectory.v0Heur crq 1) 1 1 =
      some trC1
    refine TrapezoidalTrajectory.mkWith_eq_some crq (TrapezoidalTrajectory.v0Heur crq 1)
      1 1 ?_
    intro i j
    unfold TrapezoidalTrajectory.eval_constraint
    rw [v0Heur_two_rows, v0Heur_two_rows]
    simp
  · have hcall : TrapezoidalTrajectory.callQ trC1 3 1 = (3 - Real.sqrt 5) * (1 / 2) * 3 := by
      simp only [TrapezoidalTrajectory.callQ]
      have hi : TrapezoidalTrajectory.segIdx trC1
          (min (max (3 : ℝ) 0) (TrapezoidalTrajectory.totalT trC1)) = 0 := Fin.eq_zero _
      rw [hi]
      show TrapezoidalTrajectory.segQ (crq (Fin.castSucc 0)) (crq (Fin.succ 0))
          (TrapezoidalTrajectory.v0Heur crq 1 (Fin.castSucc 0))
          (TrapezoidalTrajectory.v0Heur crq 1 (Fin.succ 0)) (trC1.seg 0) 1
          (min (max (3 : ℝ) 0) (TrapezoidalTrajectory.totalT trC1) -
            TrapezoidalTrajectory.tcum trC1 ((0 : Fin 1) : ℕ)) = _
      have htc : min (max (3 : ℝ) 0) (TrapezoidalTrajectory.totalT trC1) -
          TrapezoidalTrajectory.tcum trC1 ((0 : Fin 1) : ℕ) = 3 := by
        rw [totalT_trC1]
        show min (max (3 : ℝ) 0) 3 - TrapezoidalTrajectory.tcum trC1 0 = 3
        rw [tcum_trC1_zero]
        norm_num
      rw [htc, crq_row0, crq_row1, v0Heur_crq_row0, v0Heur_crq_row1, trC1_seg]
      have hj : (1 : Fin 2) ≠ TrapezoidalTrajectory.istar cr0 cr1 := by
        rw [istar_cr]
        decide
      have ht3 : (3 : ℝ) ≤ (TrapezoidalTrajectory.solveTables cr0 cr1 cv0 cv0 1 1).t := by
        show (3 : ℝ) ≤ TrapezoidalTrajectory.tTotal cr0 cr1 cv0 cv0 1 1
        rw [tTotal_cr]
      rw [segQ_coast_of_nondominant cr0 cr1 cv0 cv0 1 1 1 hj 3 (by norm_num) ht3]
      rw [dq_cr_axis1]
      show (0 : ℝ) + (3 - Real.sqrt 5) * (1 / 2) * 3 = _
      ring
    rw [hcall]
    show (3 - Real.sqrt 5) * (1 / 2) * 3 ≠ (1 : ℝ)
    intro heq
    have h5 : Real.sqrt 5 ^ 2 = 5 := Real.sq_sqrt (by norm_num)
    nlinarith [h5]
